/-
  Verification of the web-request-mediator storage, permission and
  handler-registry components against their natural-language specification.

  The development shallowly embeds:
  - the cookie-backed storage driver (src/lib/cookieDriver.js), with the
    browser cookie jar modelled as an association list of
    (cookie name, raw string value) pairs in enumeration order;
  - the PermissionManager (src/PermissionManager.js);
  - the WebRequestHandlersService handler registry
    (src/lib/WebRequestHandlersService.js), with the localforage universe
    modelled as an association list from instance name to instance contents.

  JavaScript strings handled by the cookie driver are modelled as `List Char`
  so that the driver's prefix arithmetic (startsWith / substring) is explicit.
-/
import Mathlib

set_option autoImplicit false

namespace WRM

/-! ## Association lists

The external storage media (the browser cookie jar used by `tiny-cookie`,
and the localforage instances) are key-value collections preserving
insertion order; writing to an existing key overwrites it in place and a
fresh key is appended at the end. -/

/-- First value bound to `k`, or `none`. Models `tiny-cookie`'s `get` /
localforage's `getItem` returning `null` for an absent key. -/
def alGet {α β : Type} [BEq α] : List (α × β) → α → Option β
  | [], _ => none
  | e :: t, k => if e.1 == k then some e.2 else alGet t k

/-- Overwrite the first binding of `k` in place, or append `(k, v)`.
Models `tiny-cookie`'s `set` / localforage's `setItem`. -/
def alSet {α β : Type} [BEq α] : List (α × β) → α → β → List (α × β)
  | [], k, v => [(k, v)]
  | e :: t, k, v => if e.1 == k then (k, v) :: t else e :: alSet t k v

/-- Remove every binding of `k`. Models `tiny-cookie`'s `remove` /
localforage's `removeItem`. -/
def alRemove {α β : Type} [BEq α] : List (α × β) → α → List (α × β)
  | [], _ => []
  | e :: t, k => if e.1 == k then alRemove t k else e :: alRemove t k

/-! ## Cookie driver (src/lib/cookieDriver.js)

Strings are `List Char`; `Jar` is the flat shared cookie jar holding raw
(serialized) string values in enumeration order. -/

abbrev Str := List Char

abbrev Jar := List (Str × Str)

/-- A localforage instance configuration as used by the cookie driver:
`options.name` and `options.storeName`. -/
structure CookieInstance where
  name : Str
  storeName : Str
deriving DecidableEq

/-- localforage's default `storeName` (`defaultConfig.storeName`),
`'keyvaluepairs'`. -/
def defaultStoreName : Str := "keyvaluepairs".data

/-- `_getKeyPrefix(options, defaultConfig)`:
`keyPrefix = options.name + '__'`, extended with `options.storeName + '__'`
when the store name differs from the default, preceded by `'_lf_'`. -/
def getKeyPre (nm sn dflt : Str) : Str :=
  let kp := nm ++ "__".data
  let kp := if sn == dflt then kp else kp ++ sn ++ "__".data
  "_lf_".data ++ kp

/-- JavaScript truthiness of a string value: only the empty string is falsy. -/
def strTruthy (s : Str) : Bool := !s.isEmpty

/-- JavaScript values as stored/returned by the driver (the serializable
subset relevant to this code, plus `undefined`). -/
inductive JSVal where
  | undefined
  | null
  | bool (b : Bool)
  | num (n : Int)
  | str (s : Str)
deriving DecidableEq

/-- The ambient JSON serializer (`JSON.stringify` / `JSON.parse`), an
external platform facility the driver calls; the driver itself treats it as
an opaque string codec. -/
structure Serializer where
  stringify : JSVal → Str
  parse : Str → JSVal

/-- The deserialization step shared by `getItem` and `iterate`:
`if(result) { result = JSON.parse(result); }` applied to a raw cookie
string — a falsy (empty) raw string is passed through unparsed. -/
def parseRaw (sz : Serializer) (raw : Str) : JSVal :=
  if strTruthy raw then sz.parse raw else .str raw

/-- `getItem(key)`: reads cookie `keyPrefix + key`; an absent cookie
(`get` returns `null`) yields `null`, a present one is deserialized. -/
def getItem (sz : Serializer) (jar : Jar) (inst : CookieInstance) (dflt : Str)
    (k : Str) : JSVal :=
  let keyPre := getKeyPre inst.name inst.storeName dflt
  match alGet jar (keyPre ++ k) with
  | none => .null
  | some raw => parseRaw sz raw

/-- `setItem(key, value)`: `undefined` is converted to `null`, the original
(normalized) value is saved for the return, the value is serialized and the
cookie `keyPrefix + key` is set. Returns (returned value, new jar). -/
def setItem (sz : Serializer) (jar : Jar) (inst : CookieInstance) (dflt : Str)
    (k : Str) (v : JSVal) : JSVal × Jar :=
  let v := if v == .undefined then .null else v
  let originalValue := v
  let raw := sz.stringify v
  let keyPre := getKeyPre inst.name inst.storeName dflt
  (originalValue, alSet jar (keyPre ++ k) raw)

/-- `removeItem(key)`: removes cookie `keyPrefix + key`. -/
def removeItem (jar : Jar) (inst : CookieInstance) (dflt : Str) (k : Str) :
    Jar :=
  alRemove jar (getKeyPre inst.name inst.storeName dflt ++ k)

/-- `keys()`: all cookie names filtered by the instance's key prefix, the
prefix stripped (`substring(keyPrefixLength)`), in jar enumeration order. -/
def keysFn (jar : Jar) (inst : CookieInstance) (dflt : Str) : List Str :=
  let keyPre := getKeyPre inst.name inst.storeName dflt
  ((jar.map (fun e => e.1)).filter (fun n => keyPre.isPrefixOf n)).map
    (fun n => n.drop keyPre.length)

/-- JavaScript `String.prototype.substring` coerces its start argument with
`ToIntegerOrInfinity`; when `key(n)` passes the key-*prefix string* itself
(`result.substring(keyPrefix)`), the prefix — which always begins with
`'_lf_'` and is therefore not numeric — coerces to `NaN`, which `substring`
clamps to index `0`. -/
def jsSubstringStringArg (_s : Str) : Nat := 0

/-- `key(n)`: walks the jar, counting only names that match the instance's
key prefix; at position `n` the full cookie name is taken and
`result.substring(keyPrefix)` is applied to it (see
`jsSubstringStringArg` — the argument is the prefix *string*, not its
length, so index 0 is used and nothing is stripped); `null` when `n` is out
of range of the prefix-filtered names. -/
def keyFn (jar : Jar) (inst : CookieInstance) (dflt : Str) (n : Nat) :
    Option Str :=
  let keyPre := getKeyPre inst.name inst.storeName dflt
  match ((jar.map (fun e => e.1)).filter (fun nm => keyPre.isPrefixOf nm))[n]? with
  | none => none
  | some nm =>
    some (if strTruthy nm then nm.drop (jsSubstringStringArg keyPre) else nm)

/-- The loop of `iterate(iterator)`: entries whose name does not match the
key prefix are skipped without advancing the ordinal (`iterationNumber`
counts only matching entries, starting at 1); the visitor's first
non-`undefined` result is returned early. -/
def iterGo {α : Type} (sz : Serializer) (visitor : JSVal → Str → Nat → Option α)
    (keyPre : Str) : List (Str × Str) → Nat → Option α
  | [], _ => none
  | (nm, raw) :: rest, i =>
    if keyPre.isPrefixOf nm then
      match visitor (parseRaw sz raw) (nm.drop keyPre.length) i with
      | some r => some r
      | none => iterGo sz visitor keyPre rest (i + 1)
    else iterGo sz visitor keyPre rest i

/-- `iterate(iterator)`: visits this instance's entries in enumeration
order with ordinals starting at 1. -/
def iterateFn {α : Type} (sz : Serializer) (visitor : JSVal → Str → Nat → Option α)
    (jar : Jar) (inst : CookieInstance) (dflt : Str) : Option α :=
  iterGo sz visitor (getKeyPre inst.name inst.storeName dflt) jar 1

/-- `_clear(keyPrefix)`: removes every cookie whose name starts with the
given key prefix. -/
def clearByPre (jar : Jar) (keyPre : Str) : Jar :=
  jar.filter (fun e => !(keyPre.isPrefixOf e.1))

/-- JavaScript falsiness of an optional string option (`undefined` or the
empty string). -/
def optFalsy : Option Str → Bool
  | none => true
  | some s => s.isEmpty

/-- `dropInstance(options)`: when `options.name` is falsy it is defaulted
from the current config (and `options.storeName = options.storeName ||
currentConfig.storeName`); a still-missing name is a `TypeError`; with no
`storeName` the *bare* per-name key prefix `` `_lf_${options.name}__` `` is
used, otherwise `_getKeyPrefix`; every matching cookie is removed. -/
def dropInstanceFn (jar : Jar) (optName optStore : Option Str)
    (selfName selfStore dflt : Str) : Except Unit Jar :=
  let nm := if optFalsy optName then some selfName else optName
  let sn := if optFalsy optName then
      (if optFalsy optStore then some selfStore else optStore)
    else optStore
  if optFalsy nm then .error ()
  else
    let name := nm.getD []
    let keyPre := if optFalsy sn then "_lf_".data ++ name ++ "__".data
      else getKeyPre name (sn.getD []) dflt
    .ok (clearByPre jar keyPre)

/-- A concrete serialization usable to instantiate the ambient `Serializer`
(the driver never inspects the serialized text, so any injective codec with
nonempty output models `JSON.stringify` for the driver's purposes): a
one-character tag followed by a direct payload, integers in sign-tagged
unary. -/
def tagEncode : JSVal → Str
  | .undefined => ['u']
  | .null => ['n']
  | .bool b => ['b', if b then 't' else 'f']
  | .num (.ofNat m) => 'i' :: 'p' :: List.replicate m '1'
  | .num (.negSucc m) => 'i' :: 'm' :: List.replicate m '1'
  | .str s => 's' :: s

/-- Inverse of `tagEncode`. -/
def tagDecode : Str → JSVal
  | 'n' :: _ => .null
  | 'b' :: c :: _ => .bool (c == 't')
  | 'i' :: 'p' :: t => .num (Int.ofNat t.length)
  | 'i' :: 'm' :: t => .num (Int.negSucc t.length)
  | 's' :: s => .str s
  | _ => .undefined

/-- The concrete serializer built from `tagEncode`/`tagDecode`. -/
def tagSerializer : Serializer := ⟨tagEncode, tagDecode⟩

/-! ## Permission Manager (src/PermissionManager.js) -/

/-- A storage-layer failure raised by the backing localforage instance.
`noStorageAvailable` is the specific recognized failure signature of
constrained third-party embedding contexts; everything else is `other`. -/
inductive StorageErr where
  | noStorageAvailable
  | other (msg : String)
deriving DecidableEq

/-- Modelled from the spec: the recognition of the specific
"no storage available" failure signature of constrained third-party
embedding contexts. The catch blocks that consult it on the Permission
Manager read/write paths are recorded in the repository changelog
("Handle storage errors in third party contexts ...") but the revision of
`src/PermissionManager.js` available here predates them, so the signature
test is modelled from the spec's words: swallowed only when the failure
matches the known "no storage available" condition. -/
def isNoStorageAvailable : StorageErr → Bool
  | .noStorageAvailable => true
  | .other _ => false

/-- A `PermissionStatus` object `{state: ...}`. -/
structure PermissionStatus where
  state : String
deriving DecidableEq

/-- `VALID_PERMISSION_STATES`. -/
def VALID_PERMISSION_STATES : List String := ["granted", "denied", "prompt"]

/-- The per-origin permission storage instance. `failure` records that the
backing store is unusable: when set, every read and write fails with that
error. -/
structure PermStore where
  entries : List (String × PermissionStatus)
  failure : Option StorageErr
deriving DecidableEq

/-- `this.permissions.getItem(name)`. -/
def psGetItem (st : PermStore) (k : String) :
    Except StorageErr (Option PermissionStatus) :=
  match st.failure with
  | some e => .error e
  | none => .ok (alGet st.entries k)

/-- `this.permissions.setItem(name, status)`. -/
def psSetItem (st : PermStore) (k : String) (v : PermissionStatus) :
    Except StorageErr PermStore :=
  match st.failure with
  | some e => .error e
  | none => .ok { st with entries := alSet st.entries k v }

/-- Errors the Permission Manager surfaces to its caller. -/
inductive PMErr where
  | unknownPermission (name : String)
  | invalidState (state : String)
  | storage (e : StorageErr)
deriving DecidableEq

/-- A `PermissionDescriptor` `{name: ...}`. (The embedding's types make the
source's "`permissionDesc` must be an object with a string `name`" checks
hold by construction.) -/
structure PermissionDescriptor where
  name : String
deriving DecidableEq

/-- `_validatePermissionDescriptor`: the name must be in the manager's
registry of recognized permissions, else an "unknown permission" error. -/
def validateDescriptor (registry : List String) (d : PermissionDescriptor) :
    Except PMErr Unit :=
  if registry.contains d.name then .ok () else .error (.unknownPermission d.name)

/-- `_validatePermissionStatus`: `status.state` must be one of
`VALID_PERMISSION_STATES`. -/
def validateStatus (s : PermissionStatus) : Except PMErr Unit :=
  if VALID_PERMISSION_STATES.contains s.state then .ok ()
  else .error (.invalidState s.state)

/-- Modelled from the spec: the storage-error handling on the Permission
Manager read/write paths (absent from the revision of
`src/PermissionManager.js` available here, see `isNoStorageAvailable`):
a failure matching the recognized "no storage available" signature is
swallowed, substituting the supplied default; any other storage failure is
re-thrown unchanged. -/
def swallowNoStorage {α : Type} (r : Except StorageErr α) (dflt : α) :
    Except PMErr α :=
  match r with
  | .ok v => .ok v
  | .error e => if isNoStorageAvailable e then .ok dflt else .error (.storage e)

/-- `PermissionManager.query`: validates the descriptor, reads the persisted
status (the constrained-storage condition swallowed per the spec, see
`swallowNoStorage`); a present status is returned verbatim, otherwise the
default `{state: 'prompt'}`. -/
def query (registry : List String) (st : PermStore) (d : PermissionDescriptor) :
    Except PMErr PermissionStatus :=
  match validateDescriptor registry d with
  | .error e => .error e
  | .ok _ =>
    match swallowNoStorage (psGetItem st d.name) none with
    | .error e => .error e
    | .ok (some s) => .ok s
    | .ok none => .ok ⟨"prompt"⟩

/-- `PermissionManager.request`: queries first; only when the cached state
is `'prompt'` is the externally supplied consent function consulted
(`consentRaw` is its result for this descriptor), its result validated, and
persisted — with a returned `'denied'` stored as `{state: 'prompt'}` while
the caller still receives `'denied'`. Returns (status, new store). -/
def request (registry : List String) (st : PermStore) (d : PermissionDescriptor)
    (consentRaw : PermissionStatus) : Except PMErr (PermissionStatus × PermStore) :=
  match query registry st d with
  | .error e => .error e
  | .ok status =>
    if status.state = "prompt" then
      match validateStatus consentRaw with
      | .error e => .error e
      | .ok _ =>
        -- do not store `denied`, set to `prompt` so origin can ask later
        let storeStatus : PermissionStatus :=
          if consentRaw.state = "denied" then ⟨"prompt"⟩ else consentRaw
        match swallowNoStorage (psSetItem st d.name storeStatus) st with
        | .error e => .error e
        | .ok st' => .ok (consentRaw, st')
    else
      .ok (status, st)

/-- `PermissionManager.revoke`: validates the descriptor, force-writes
`{state: 'prompt'}` (constrained-storage condition swallowed), then returns
the result of a fresh `query`. -/
def revoke (registry : List String) (st : PermStore) (d : PermissionDescriptor) :
    Except PMErr (PermissionStatus × PermStore) :=
  match validateDescriptor registry d with
  | .error e => .error e
  | .ok _ =>
    match swallowNoStorage (psSetItem st d.name ⟨"prompt"⟩) st with
    | .error e => .error e
    | .ok st' =>
      match query registry st' d with
      | .error e => .error e
      | .ok s => .ok (s, st')

/-! ## Handler registry (src/lib/WebRequestHandlersService.js)

The localforage universe is an association list from instance name to
instance contents; instances are created lazily (an unknown name reads as
an empty instance). -/

/-- A value stored in a localforage instance by the registry or by other
code sharing the instance: booleans (registration flags), strings, numbers,
or a storage-configuration object `{name, driver}` (the origin index's
values). -/
inductive LVal where
  | vbool (b : Bool)
  | vstr (s : String)
  | vnum (n : Int)
  | vconfig (name : String)
deriving DecidableEq

abbrev LInstance := List (String × LVal)

abbrev LUniverse := List (String × LInstance)

/-- `localforage.createInstance({name, ...})`: the instance's current
contents (lazily created: empty when never written). -/
def uInstance (u : LUniverse) (nm : String) : LInstance :=
  (alGet u nm).getD []

/-- `getItem` on the named instance. -/
def uGet (u : LUniverse) (nm k : String) : Option LVal :=
  alGet (uInstance u nm) k

/-- `setItem` on the named instance. -/
def uSet (u : LUniverse) (nm k : String) (v : LVal) : LUniverse :=
  alSet u nm (alSet (uInstance u nm) k v)

/-- `removeItem` on the named instance. -/
def uRemove (u : LUniverse) (nm k : String) : LUniverse :=
  alSet u nm (alRemove (uInstance u nm) k)

/-- A URL as parsed by `utils.parseUrl`: origin, pathname, query string
(`search`) and fragment (`hash`) components. -/
structure WRUrl where
  origin : String
  pathname : String
  search : String
  hash : String
deriving DecidableEq

/-- The full text of a parsed URL (used in the mismatched-origin error). -/
def urlString (u : WRUrl) : String :=
  u.origin ++ u.pathname ++ u.search ++ u.hash

/-- Errors surfaced by the registry. -/
inductive RegErr where
  | invalidOrigin (url expected : String)
  | cleanup (msg : String)
deriving DecidableEq

/-- `_normalizeUrl(url, origin)`: the URL must parse to an origin equal to
the expected origin, else the call fails; the normalized form is
`parsed.origin + parsed.pathname` (query and fragment stripped). -/
def normalizeUrl (u : WRUrl) (origin : String) : Except RegErr String :=
  if u.origin ≠ origin then .error (.invalidOrigin (urlString u) origin)
  else .ok (u.origin ++ u.pathname)

/-- `_getOriginStorageConfig(requestType).name`. -/
def originStorageName (rt : String) : String :=
  "webRequestHandler_" ++ rt ++ "_origin"

/-- `_getHandlerStorageConfig(requestType, origin).name`. -/
def handlerStorageName (rt origin : String) : String :=
  "webRequestHandler_" ++ rt ++ "_" ++ origin ++ "_registration"

/-- The body of `hasRegistration` after URL normalization: the handler
store's entry for the normalized URL must be strictly (`===`) the boolean
`true`. -/
def hasRegistrationNorm (rt ro url : String) (univ : LUniverse) : Bool :=
  match uGet univ (handlerStorageName rt ro) url with
  | some (.vbool true) => true
  | _ => false

/-- `hasRegistration(requestType, url)`. -/
def hasRegistration (rt ro : String) (u : WRUrl) (univ : LUniverse) :
    Except RegErr Bool :=
  match normalizeUrl u ro with
  | .error e => .error e
  | .ok url => .ok (hasRegistrationNorm rt ro url univ)

/-- The body of `getRegistration` after URL normalization (its inner
`hasRegistration` call re-normalizes the already-normalized URL string,
which is idempotent): `null` when no registration exists, else the
normalized URL itself. -/
def getRegistrationNorm (rt ro url : String) (univ : LUniverse) :
    Option String :=
  if hasRegistrationNorm rt ro url univ then some url else none

/-- `getRegistration(requestType, url)`. -/
def getRegistration (rt ro : String) (u : WRUrl) (univ : LUniverse) :
    Except RegErr (Option String) :=
  match normalizeUrl u ro with
  | .error e => .error e
  | .ok url => .ok (getRegistrationNorm rt ro url univ)

/-- `_setRegistration(requestType, url)`: `url` is the already-normalized
string `origin + pathname` (re-parsing it recovers those components);
records the origin in the origin index with the handler store's own
addressing configuration as value, then sets the handler store's flag for
the URL to `true`. Returns (handlerUrl, new universe). -/
def setRegistration (rt origin pathname : String) (univ : LUniverse) :
    String × LUniverse :=
  let handlerUrl := origin ++ pathname
  let univ1 := uSet univ (originStorageName rt) origin
    (.vconfig (handlerStorageName rt origin))
  let univ2 := uSet univ1 (handlerStorageName rt origin) handlerUrl (.vbool true)
  (handlerUrl, univ2)

/-- `register(requestType, url)`: normalizes the URL; an existing
registration is returned as-is, otherwise `_setRegistration` runs. -/
def register (rt ro : String) (u : WRUrl) (univ : LUniverse) :
    Except RegErr (String × LUniverse) :=
  match normalizeUrl u ro with
  | .error e => .error e
  | .ok url =>
    match getRegistrationNorm rt ro url univ with
    | some existing => .ok (existing, univ)
    | none => .ok (setRegistration rt u.origin u.pathname univ)

/-- `unregister(requestType, url)`: normalizes the URL; with no existing
registration returns `false` without emitting anything. Otherwise emits the
`'unregister'` event — the emitter's `waitUntil` option awaits the promise a
listener attached via `event.waitUntil` (`attached`; `none` when no listener
attached work) — and only strictly after that completes removes the handler
store entry and returns `true`; a rejection of the attached work propagates
with the removal not yet executed. Result: (returned boolean, whether the
event was emitted, new universe). -/
def unregister (rt ro : String) (u : WRUrl) (univ : LUniverse)
    (attached : Option (Except RegErr Unit)) :
    Except RegErr (Bool × Bool × LUniverse) :=
  match normalizeUrl u ro with
  | .error e => .error e
  | .ok url =>
    match getRegistrationNorm rt ro url univ with
    | none => .ok (false, false, univ)
    | some registration =>
      match attached with
      | some (.error e) => .error e
      | _ => .ok (true, true, uRemove univ (handlerStorageName rt ro) registration)

/-- `_getAllRegistrations(requestType)`: iterates the origin index; every
stored value is a handler-store configuration whose instance is opened and
whose keys (URLs) are all collected; per-origin results are concatenated in
origin-index enumeration order. -/
def getAllRegistrations (rt : String) (univ : LUniverse) : List String :=
  ((uInstance univ (originStorageName rt)).map (fun e =>
    match e.2 with
    | .vconfig nm => (uInstance univ nm).map (fun p => p.1)
    | _ => [])).flatten

/-! ## Association list and prefix lemmas -/

section AssocLemmas

variable {α β : Type} [BEq α] [LawfulBEq α]

theorem alGet_alSet_same (l : List (α × β)) (k : α) (v : β) :
    alGet (alSet l k v) k = some v := by
  induction l with
  | nil => simp [alSet, alGet]
  | cons e t ih =>
    cases hbeq : e.1 == k with
    | true => simp [alSet, hbeq, alGet]
    | false => simp [alSet, hbeq, alGet, ih]

theorem alGet_alSet_ne (l : List (α × β)) (k k' : α) (v : β) (h : k' ≠ k) :
    alGet (alSet l k v) k' = alGet l k' := by
  induction l with
  | nil => simp [alSet, alGet, Ne.symm h]
  | cons e t ih =>
    cases hbeq : e.1 == k with
    | true =>
      have he : e.1 = k := by simpa using hbeq
      have hf : (k == k') = false := by
        simp only [beq_eq_false_iff_ne]
        exact Ne.symm h
      simp [alSet, hbeq, alGet, he, hf]
    | false => simp [alSet, hbeq, alGet, ih]

omit [LawfulBEq α] in
theorem alGet_alRemove_same (l : List (α × β)) (k : α) :
    alGet (alRemove l k) k = none := by
  induction l with
  | nil => simp [alRemove, alGet]
  | cons e t ih =>
    cases hbeq : e.1 == k with
    | true => simp [alRemove, hbeq, ih]
    | false => simp [alRemove, hbeq, alGet, ih]

theorem map_fst_alSet (l : List (α × β)) (k : α) (v : β) :
    (alSet l k v).map (fun e => e.1) = l.map (fun e => e.1) ∨
      (alSet l k v).map (fun e => e.1) = l.map (fun e => e.1) ++ [k] := by
  induction l with
  | nil => right; simp [alSet]
  | cons e t ih =>
    cases hbeq : e.1 == k with
    | true =>
      left
      have he : e.1 = k := by simpa using hbeq
      simp [alSet, hbeq, he]
    | false =>
      cases ih with
      | inl h => left; simp [alSet, hbeq, h]
      | inr h => right; simp [alSet, hbeq, h]

theorem isPrefixOf_append_self (p t : List α) : p.isPrefixOf (p ++ t) = true := by
  induction p with
  | nil => simp [List.isPrefixOf]
  | cons a as ih => simp [List.isPrefixOf, ih]

theorem isPrefixOf_comparable (c a b : List α) (ha : a.isPrefixOf c = true)
    (hb : b.isPrefixOf c = true) :
    a.isPrefixOf b = true ∨ b.isPrefixOf a = true := by
  induction c generalizing a b with
  | nil =>
    cases a with
    | nil => left; simp [List.isPrefixOf]
    | cons x xs => simp [List.isPrefixOf] at ha
  | cons x xs ih =>
    cases a with
    | nil => left; simp [List.isPrefixOf]
    | cons a1 as =>
      cases b with
      | nil => right; simp [List.isPrefixOf]
      | cons b1 bs =>
        simp only [List.isPrefixOf, Bool.and_eq_true, beq_iff_eq] at ha hb
        rcases ha with ⟨ha1, ha2⟩
        rcases hb with ⟨hb1, hb2⟩
        subst ha1
        subst hb1
        cases ih as bs ha2 hb2 with
        | inl h => left; simp [List.isPrefixOf, h]
        | inr h => right; simp [List.isPrefixOf, h]

theorem not_isPrefixOf_append (pa pb k : List α) (h1 : pa.isPrefixOf pb = false)
    (h2 : pb.isPrefixOf pa = false) : pb.isPrefixOf (pa ++ k) = false := by
  cases hc : pb.isPrefixOf (pa ++ k) with
  | false => rfl
  | true =>
    cases isPrefixOf_comparable (pa ++ k) pa pb (isPrefixOf_append_self pa k) hc with
    | inl h => rw [h] at h1; cases h1
    | inr h => rw [h] at h2; cases h2

theorem append_ne_append_of_mutual (pa pb k k' : List α)
    (h1 : pa.isPrefixOf pb = false) (h2 : pb.isPrefixOf pa = false) :
    pb ++ k' ≠ pa ++ k := by
  intro he
  have hp : pb.isPrefixOf (pa ++ k) = true := by
    rw [← he]; exact isPrefixOf_append_self pb k'
  rw [not_isPrefixOf_append pa pb k h1 h2] at hp
  cases hp

end AssocLemmas

theorem alGet_clearByPre (jar : Jar) (keyPre n : Str)
    (h : keyPre.isPrefixOf n = true) : alGet (clearByPre jar keyPre) n = none := by
  induction jar with
  | nil => simp [clearByPre, alGet]
  | cons e t ih =>
    cases hm : keyPre.isPrefixOf e.1 with
    | true => simpa [clearByPre, hm] using ih
    | false =>
      have hne : (e.1 == n) = false := by
        cases hbeq : e.1 == n with
        | false => rfl
        | true =>
          have : e.1 = n := by simpa using hbeq
          rw [this, h] at hm
          cases hm
      simpa [clearByPre, hm, alGet, hne] using ih

theorem iterGo_alSet {γ : Type} (sz : Serializer)
    (visitor : JSVal → Str → Nat → Option γ) (pb : Str) (jar : List (Str × Str))
    (n raw : Str) (h : pb.isPrefixOf n = false) (i : Nat) :
    iterGo sz visitor pb (alSet jar n raw) i = iterGo sz visitor pb jar i := by
  induction jar generalizing i with
  | nil => simp [alSet, iterGo, h]
  | cons e t ih =>
    rcases e with ⟨nm, rv⟩
    cases hbeq : nm == n with
    | true =>
      have hnm : nm = n := by simpa using hbeq
      subst hnm
      simp [alSet, hbeq, iterGo, h]
    | false =>
      simp only [alSet, hbeq]
      cases hm : pb.isPrefixOf nm with
      | true =>
        simp only [iterGo, hm]
        cases hv : visitor (parseRaw sz rv) (nm.drop pb.length) i with
        | some r => rfl
        | none => exact ih (i + 1)
      | false => simp only [iterGo, hm]; exact ih i

theorem uGet_uSet_same (u : LUniverse) (nm k : String) (v : LVal) :
    uGet (uSet u nm k v) nm k = some v := by
  unfold uGet uSet uInstance
  rw [alGet_alSet_same]
  simp [alGet_alSet_same]

theorem uGet_uRemove_same (u : LUniverse) (nm k : String) :
    uGet (uRemove u nm k) nm k = none := by
  unfold uGet uRemove uInstance
  rw [alGet_alSet_same]
  simp [alGet_alRemove_same]

theorem tag_roundtrip (v : JSVal) : tagDecode (tagEncode v) = v := by
  cases v with
  | undefined => rfl
  | null => rfl
  | bool b => cases b <;> rfl
  | num n => cases n <;> simp [tagEncode, tagDecode]
  | str s => rfl

theorem tag_ne_nil (v : JSVal) : tagEncode v ≠ [] := by
  cases v with
  | undefined => simp [tagEncode]
  | null => simp [tagEncode]
  | bool b => simp [tagEncode]
  | num n => cases n <;> simp [tagEncode]
  | str s => simp [tagEncode]

/-! ## Claim theorems -/

/-- C3, as stated, is false on the code: the claim promises that entries of
one cookie-driver instance are invisible to `get`/`keys`/`iterate` of any
instance with a different composite name, but the instance
`{name: "perm", storeName: "x"}` and the instance `{name: "perm"}` (default
store name) have composite names that differ while the key prefix
`_lf_perm__` of the latter is a prefix of the former's physical cookie
name `_lf_perm__x__a`; the write through the first instance is returned by
`keys` and by `get` on the second. -/
theorem cookie_isolation_counterexample :
    (CookieInstance.mk "perm".data "x".data ≠
      CookieInstance.mk "perm".data defaultStoreName) ∧
    keysFn
      (setItem tagSerializer [] ⟨"perm".data, "x".data⟩ defaultStoreName
        "a".data (.str "v".data)).2
      ⟨"perm".data, defaultStoreName⟩ defaultStoreName = ["x__a".data] ∧
    getItem tagSerializer
      (setItem tagSerializer [] ⟨"perm".data, "x".data⟩ defaultStoreName
        "a".data (.str "v".data)).2
      ⟨"perm".data, defaultStoreName⟩ defaultStoreName "x__a".data =
        .str "v".data := by
  refine ⟨by decide, rfl, rfl⟩

/-- C3 (amended): for two cookie-driver instances such that neither
instance's computed key prefix is a string prefix of the other's, a key
written through instance A is never observed by `get`, `keys`, or `iterate`
invoked on instance B, even though both share the single flat cookie jar:
B's observations of the shared jar are unchanged by A's write. -/
theorem cookie_namespace_isolation (sz : Serializer) (A B : CookieInstance)
    (dflt : Str) (jar : Jar) (k : Str) (v : JSVal)
    (h1 : (getKeyPre A.name A.storeName dflt).isPrefixOf
      (getKeyPre B.name B.storeName dflt) = false)
    (h2 : (getKeyPre B.name B.storeName dflt).isPrefixOf
      (getKeyPre A.name A.storeName dflt) = false) :
    keysFn (setItem sz jar A dflt k v).2 B dflt = keysFn jar B dflt ∧
    (∀ k', getItem sz (setItem sz jar A dflt k v).2 B dflt k' =
      getItem sz jar B dflt k') ∧
    (∀ (γ : Type) (visitor : JSVal → Str → Nat → Option γ),
      iterateFn sz visitor (setItem sz jar A dflt k v).2 B dflt =
        iterateFn sz visitor jar B dflt) := by
  have hpb : (getKeyPre B.name B.storeName dflt).isPrefixOf
      (getKeyPre A.name A.storeName dflt ++ k) = false :=
    not_isPrefixOf_append _ _ k h1 h2
  refine ⟨?_, ?_, ?_⟩
  · simp only [keysFn, setItem]
    cases map_fst_alSet jar (getKeyPre A.name A.storeName dflt ++ k)
        (sz.stringify (if v == JSVal.undefined then JSVal.null else v)) with
    | inl hnames => rw [hnames]
    | inr hnames => rw [hnames, List.filter_append]; simp [hpb]
  · intro k'
    have hne := append_ne_append_of_mutual (getKeyPre A.name A.storeName dflt)
      (getKeyPre B.name B.storeName dflt) k k' h1 h2
    simp only [getItem, setItem]
    rw [alGet_alSet_ne _ _ _ _ hne]
  · intro γ visitor
    simp only [iterateFn, setItem]
    exact iterGo_alSet sz visitor _ jar _ _ hpb 1

/-- Witness for C3's amended theorem: two instances with unrelated
prefixes; a write through the first leaves the second's `keys` view of the
jar (empty) unchanged. -/
theorem cookie_namespace_isolation_witness :
    ((getKeyPre "perm".data "x".data defaultStoreName).isPrefixOf
      (getKeyPre "other".data defaultStoreName defaultStoreName) = false) ∧
    keysFn
      (setItem tagSerializer [] ⟨"perm".data, "x".data⟩ defaultStoreName
        "a".data (.str "v".data)).2
      ⟨"other".data, defaultStoreName⟩ defaultStoreName =
      keysFn [] ⟨"other".data, defaultStoreName⟩ defaultStoreName :=
  ⟨by decide,
    (cookie_namespace_isolation tagSerializer ⟨"perm".data, "x".data⟩
      ⟨"other".data, defaultStoreName⟩ defaultStoreName [] "a".data
      (.str "v".data) (by decide) (by decide)).1⟩

/-- C4: `dropInstance` called with a (truthy) `name` and no `storeName`
uses the bare per-name key prefix `` `_lf_${name}__` ``, so it removes
every entry of every storeName variant nested under that name (each such
entry's physical cookie name extends that bare prefix). -/
theorem dropInstance_name_only (jar : Jar) (nm selfN selfS dflt : Str)
    (h : nm ≠ []) :
    ∃ jar', dropInstanceFn jar (some nm) none selfN selfS dflt = .ok jar' ∧
      ∀ sn k, alGet jar' (getKeyPre nm sn dflt ++ k) = none := by
  have hnm : nm.isEmpty = false := by
    cases nm with
    | nil => exact absurd rfl h
    | cons a t => rfl
  refine ⟨clearByPre jar ("_lf_".data ++ nm ++ "__".data), ?_, ?_⟩
  · simp [dropInstanceFn, optFalsy, hnm, List.append_assoc]
  · intro sn k
    apply alGet_clearByPre
    cases hsn : sn == dflt with
    | true => simp [getKeyPre, hsn, List.append_assoc]
    | false => simp [getKeyPre, hsn, List.append_assoc]

/-- Witness for C4 at the spec's scenario: the entry `_lf_perm__x__a`
written by the instance `{name: "perm", storeName: "x"}` under key `"a"` is
removed by `dropInstance({name: "perm"})`. -/
theorem dropInstance_name_only_witness :
    ("perm".data ≠ ([] : Str)) ∧
    (∃ jar', dropInstanceFn [("_lf_perm__x__a".data, "sv".data)]
        (some "perm".data) none "z".data defaultStoreName defaultStoreName =
        .ok jar' ∧
      ∀ sn k, alGet jar' (getKeyPre "perm".data sn defaultStoreName ++ k) = none) ∧
    dropInstanceFn [("_lf_perm__x__a".data, "sv".data)] (some "perm".data)
      none "z".data defaultStoreName defaultStoreName = .ok [] :=
  ⟨by decide,
    dropInstance_name_only [("_lf_perm__x__a".data, "sv".data)] "perm".data
      "z".data defaultStoreName defaultStoreName (by decide),
    rfl⟩

/-- C5: evaluation of `key(n)` at the failing input. The jar holds the
single cookie `_lf_p__a` written by the instance `{name: "p"}` under key
`"a"`; `key(0)` returns the full physical name `_lf_p__a` instead of the
prefix-stripped `"a"` (because `result.substring(keyPrefix)` passes the
prefix string, which coerces to index 0, where the sibling `keys` path
correctly passes `keyPrefixLength`); `key(1)` is out of range and returns
`null`; `keys()` on the same jar returns the stripped `["a"]`. -/
theorem key_unstripped_at_failing_input :
    keyFn [("_lf_p__a".data, "sv".data)] ⟨"p".data, defaultStoreName⟩
      defaultStoreName 0 = some "_lf_p__a".data ∧
    keyFn [("_lf_p__a".data, "sv".data)] ⟨"p".data, defaultStoreName⟩
      defaultStoreName 0 ≠ some "a".data ∧
    keyFn [("_lf_p__a".data, "sv".data)] ⟨"p".data, defaultStoreName⟩
      defaultStoreName 1 = none ∧
    keysFn [("_lf_p__a".data, "sv".data)] ⟨"p".data, defaultStoreName⟩
      defaultStoreName = ["a".data] := by
  refine ⟨rfl, by decide, rfl, rfl⟩

/-- C6: `setItem(k, v)` returns the accepted value (`v`, with `undefined`
normalized to `null` before storage), a subsequent `getItem(k)` on the same
instance returns that value again, and `getItem` of an absent key returns
`null` — for any serializer satisfying the JSON round-trip (on defined
values, whose serialization is a nonempty string). -/
theorem setItem_getItem_roundtrip (sz : Serializer)
    (hrt : ∀ v, v ≠ JSVal.undefined → sz.parse (sz.stringify v) = v)
    (hne : ∀ v, v ≠ JSVal.undefined → sz.stringify v ≠ [])
    (jar : Jar) (inst : CookieInstance) (dflt k : Str) (v : JSVal) :
    (setItem sz jar inst dflt k v).1 =
      (if v = JSVal.undefined then JSVal.null else v) ∧
    getItem sz (setItem sz jar inst dflt k v).2 inst dflt k =
      (if v = JSVal.undefined then JSVal.null else v) ∧
    (∀ k₀, alGet jar (getKeyPre inst.name inst.storeName dflt ++ k₀) = none →
      getItem sz jar inst dflt k₀ = JSVal.null) := by
  have hwne : (if v = JSVal.undefined then JSVal.null else v) ≠ JSVal.undefined := by
    cases hv : v <;> simp
  refine ⟨?_, ?_, ?_⟩
  · simp [setItem]
  · unfold getItem setItem
    simp only []
    rw [show (if v == JSVal.undefined then JSVal.null else v) =
        (if v = JSVal.undefined then JSVal.null else v) by simp,
      alGet_alSet_same]
    have htr : strTruthy
        (sz.stringify (if v = JSVal.undefined then JSVal.null else v)) = true := by
      cases hcase : sz.stringify (if v = JSVal.undefined then JSVal.null else v) with
      | nil => exact absurd hcase (hne _ hwne)
      | cons a t => simp [strTruthy]
    simp [parseRaw, htr, hrt _ hwne]
  · intro k₀ hab
    simp [getItem, hab]

/-- Witness for C6 with the concrete `tagSerializer`: writing the string
value `"v"` under key `"a"` reads back as `"v"`, and the absent key `"b"`
reads as `null`. -/
theorem setItem_getItem_roundtrip_witness :
    (setItem tagSerializer [] ⟨"perm".data, "x".data⟩ defaultStoreName
      "a".data (.str "v".data)).1 =
      (if JSVal.str "v".data = JSVal.undefined then JSVal.null
        else JSVal.str "v".data) ∧
    getItem tagSerializer
      (setItem tagSerializer [] ⟨"perm".data, "x".data⟩ defaultStoreName
        "a".data (.str "v".data)).2
      ⟨"perm".data, "x".data⟩ defaultStoreName "a".data =
      (if JSVal.str "v".data = JSVal.undefined then JSVal.null
        else JSVal.str "v".data) ∧
    (∀ k₀, alGet ([] : Jar)
        (getKeyPre "perm".data "x".data defaultStoreName ++ k₀) = none →
      getItem tagSerializer [] ⟨"perm".data, "x".data⟩ defaultStoreName k₀ =
        JSVal.null) :=
  setItem_getItem_roundtrip tagSerializer
    (fun v _ => tag_roundtrip v) (fun v _ => tag_ne_nil v)
    [] ⟨"perm".data, "x".data⟩ defaultStoreName "a".data (.str "v".data)

/-- `query` on a registered name over a failure-free store returns the
persisted status, or the default `{state: "prompt"}` when absent. -/
theorem query_eq (registry : List String) (st : PermStore)
    (d : PermissionDescriptor) (hreg : registry.contains d.name = true)
    (hfail : st.failure = none) :
    query registry st d = .ok ((alGet st.entries d.name).getD ⟨"prompt"⟩) := by
  unfold query validateDescriptor psGetItem swallowNoStorage
  rw [hfail]
  simp only [hreg, if_true]
  cases alGet st.entries d.name <;> rfl

/-- `request` on a registered name over a failure-free store whose cached
state is (or defaults to) `prompt` consults the consent function and
persists its (valid) result, a `denied` normalized to `prompt`. -/
theorem request_eq_of_prompt (registry : List String) (st : PermStore)
    (d : PermissionDescriptor) (c : PermissionStatus)
    (hreg : registry.contains d.name = true) (hfail : st.failure = none)
    (hvalid : VALID_PERMISSION_STATES.contains c.state = true)
    (hp : (alGet st.entries d.name).getD ⟨"prompt"⟩ = ⟨"prompt"⟩) :
    request registry st d c = .ok (c, PermStore.mk
      (alSet st.entries d.name
        (if c.state = "denied" then ⟨"prompt"⟩ else c)) none) := by
  unfold request
  rw [query_eq registry st d hreg hfail, hp]
  unfold validateStatus psSetItem swallowNoStorage
  rw [hfail]
  simp only [hvalid, if_true]

/-- C1: on a registered permission name, a failure-free store, and any
valid consent-function result, `request` never persists a status with
state `"denied"`: the store after a successful `request` never maps the
name to `{state: "denied"}` (provided it did not already), and in the case
where the consent function is consulted (cached state absent or `prompt`)
and returns `{state: "denied"}`, the value written is `{state: "prompt"}`
while the caller receives `{state: "denied"}`, so a query immediately
following the denied request returns `{state: "prompt"}`. -/
theorem request_denied_not_persisted (registry : List String) (st : PermStore)
    (d : PermissionDescriptor) (c : PermissionStatus)
    (hreg : registry.contains d.name = true)
    (hfail : st.failure = none)
    (hvalid : VALID_PERMISSION_STATES.contains c.state = true)
    (hnden : alGet st.entries d.name ≠ some ⟨"denied"⟩) :
    ∃ out st', request registry st d c = .ok (out, st') ∧
      alGet st'.entries d.name ≠ some ⟨"denied"⟩ ∧
      (c.state = "denied" →
        (alGet st.entries d.name = none ∨
          alGet st.entries d.name = some ⟨"prompt"⟩) →
        out = ⟨"denied"⟩ ∧ alGet st'.entries d.name = some ⟨"prompt"⟩ ∧
        query registry st' d = .ok ⟨"prompt"⟩) := by
  have hprompt : ∀ hp : (alGet st.entries d.name).getD ⟨"prompt"⟩ = ⟨"prompt"⟩,
      ∃ out st', request registry st d c = .ok (out, st') ∧
      alGet st'.entries d.name ≠ some ⟨"denied"⟩ ∧
      (c.state = "denied" →
        (alGet st.entries d.name = none ∨
          alGet st.entries d.name = some ⟨"prompt"⟩) →
        out = ⟨"denied"⟩ ∧ alGet st'.entries d.name = some ⟨"prompt"⟩ ∧
        query registry st' d = .ok ⟨"prompt"⟩) := by
    intro hp
    refine ⟨c, _, request_eq_of_prompt registry st d c hreg hfail hvalid hp,
      ?_, ?_⟩
    · show alGet (alSet st.entries d.name
        (if c.state = "denied" then ⟨"prompt"⟩ else c)) d.name ≠
          some ⟨"denied"⟩
      rw [alGet_alSet_same]
      intro hcon
      have heq : (if c.state = "denied" then (⟨"prompt"⟩ : PermissionStatus)
          else c) = ⟨"denied"⟩ := Option.some.inj hcon
      by_cases hc : c.state = "denied"
      · rw [if_pos hc] at heq; simp at heq
      · rw [if_neg hc] at heq; exact hc (by rw [heq])
    · intro hcden _
      refine ⟨by cases c with | mk cs => exact congrArg PermissionStatus.mk hcden,
        ?_, ?_⟩
      · show alGet (alSet st.entries d.name
          (if c.state = "denied" then ⟨"prompt"⟩ else c)) d.name =
            some ⟨"prompt"⟩
        rw [alGet_alSet_same, if_pos hcden]
      · rw [query_eq registry _ d hreg rfl]
        show Except.ok ((alGet (alSet st.entries d.name
          (if c.state = "denied" then ⟨"prompt"⟩ else c)) d.name).getD
            ⟨"prompt"⟩) = .ok ⟨"prompt"⟩
        rw [alGet_alSet_same, if_pos hcden]
        rfl
  cases hget : alGet st.entries d.name with
  | none =>
    obtain ⟨out, st', h1, h2, h3⟩ := hprompt (by rw [hget]; rfl)
    exact ⟨out, st', h1, h2, fun hd _ => h3 hd (Or.inl hget)⟩
  | some s =>
    by_cases hs : s.state = "prompt"
    case pos =>
      have hsv : s = ⟨"prompt"⟩ := by
        cases s with | mk ss => exact congrArg PermissionStatus.mk hs
      obtain ⟨out, st', h1, h2, h3⟩ := hprompt (by rw [hget, hsv]; rfl)
      exact ⟨out, st', h1, h2, fun hd _ => h3 hd (Or.inr (by rw [hget, hsv]))⟩
    case neg =>
      have hreq : request registry st d c = .ok (s, st) := by
        unfold request
        rw [query_eq registry st d hreg hfail, hget]
        simp only [Option.getD_some]
        rw [if_neg hs]
      refine ⟨s, st, hreq, hnden, ?_⟩
      intro _ hcases
      exfalso
      cases hcases with
      | inl h => cases h
      | inr h =>
        have hsv := Option.some.inj h
        rw [hsv] at hs
        exact hs rfl

/-- Witness for C1: the registered name `"storageAccess"` over an empty
store, consent function answering `{state: "denied"}`. -/
theorem request_denied_not_persisted_witness :
    ∃ out st', request ["storageAccess"] ⟨[], none⟩ ⟨"storageAccess"⟩
        ⟨"denied"⟩ = .ok (out, st') ∧
      alGet st'.entries "storageAccess" ≠ some ⟨"denied"⟩ ∧
      (("denied" : String) = "denied" →
        (alGet ([] : List (String × PermissionStatus)) "storageAccess" = none ∨
          alGet ([] : List (String × PermissionStatus)) "storageAccess" =
            some ⟨"prompt"⟩) →
        out = ⟨"denied"⟩ ∧ alGet st'.entries "storageAccess" = some ⟨"prompt"⟩ ∧
        query ["storageAccess"] st' ⟨"storageAccess"⟩ = .ok ⟨"prompt"⟩) :=
  request_denied_not_persisted ["storageAccess"] ⟨[], none⟩ ⟨"storageAccess"⟩
    ⟨"denied"⟩ (by decide) rfl (by decide) (by decide)

/-- C2 (spec-modelled error handling, see `isNoStorageAvailable` and
`swallowNoStorage`): on a registered permission name whose backing store
fails, the recognized "no storage available" failure signature makes
`query` return the default `{state: "prompt"}` instead of raising, and
`request`/`revoke` swallow the same signature on their write paths, while a
storage failure with any other signature propagates to the caller
unchanged from all three operations. -/
theorem noStorage_swallowed (registry : List String)
    (entries : List (String × PermissionStatus)) (d : PermissionDescriptor)
    (c : PermissionStatus) (e : StorageErr)
    (hreg : registry.contains d.name = true)
    (hvalid : VALID_PERMISSION_STATES.contains c.state = true) :
    (isNoStorageAvailable e = true →
      query registry ⟨entries, some e⟩ d = .ok ⟨"prompt"⟩ ∧
      request registry ⟨entries, some e⟩ d c = .ok (c, ⟨entries, some e⟩) ∧
      revoke registry ⟨entries, some e⟩ d =
        .ok (⟨"prompt"⟩, ⟨entries, some e⟩)) ∧
    (isNoStorageAvailable e = false →
      query registry ⟨entries, some e⟩ d = .error (.storage e) ∧
      request registry ⟨entries, some e⟩ d c = .error (.storage e) ∧
      revoke registry ⟨entries, some e⟩ d = .error (.storage e)) := by
  have hq : ∀ hns : isNoStorageAvailable e = true,
      query registry ⟨entries, some e⟩ d = .ok ⟨"prompt"⟩ := by
    intro hns
    unfold query validateDescriptor psGetItem swallowNoStorage
    simp only [hreg, if_true, hns]
  have hq' : ∀ hns : isNoStorageAvailable e = false,
      query registry ⟨entries, some e⟩ d = .error (.storage e) := by
    intro hns
    unfold query validateDescriptor psGetItem swallowNoStorage
    simp only [hreg, if_true, hns]
    rfl
  constructor
  · intro hns
    refine ⟨hq hns, ?_, ?_⟩
    · unfold request
      rw [hq hns]
      unfold validateStatus psSetItem swallowNoStorage
      simp only [hvalid, if_true, hns]
    · unfold revoke validateDescriptor psSetItem swallowNoStorage
      simp only [hreg, if_true, hns]
      rw [hq hns]
  · intro hns
    refine ⟨hq' hns, ?_, ?_⟩
    · unfold request
      rw [hq' hns]
    · unfold revoke validateDescriptor psSetItem swallowNoStorage
      simp only [hreg, if_true, hns]
      rfl

/-- Witness for C2: the registered name `"storageAccess"` with the
recognized failure signature and, separately, an unrecognized one. -/
theorem noStorage_swallowed_witness :
    (query ["storageAccess"] ⟨[], some .noStorageAvailable⟩ ⟨"storageAccess"⟩ =
      .ok ⟨"prompt"⟩) ∧
    (query ["storageAccess"] ⟨[], some (.other "boom")⟩ ⟨"storageAccess"⟩ =
      .error (.storage (.other "boom"))) :=
  ⟨((noStorage_swallowed ["storageAccess"] [] ⟨"storageAccess"⟩ ⟨"granted"⟩
      .noStorageAvailable (by decide) (by decide)).1 rfl).1,
    ((noStorage_swallowed ["storageAccess"] [] ⟨"storageAccess"⟩ ⟨"granted"⟩
      (.other "boom") (by decide) (by decide)).2 rfl).1⟩

/-- `getRegistrationNorm` only ever returns the url it was given. -/
theorem getRegistrationNorm_eq_some (rt ro url e : String) (univ : LUniverse)
    (h : getRegistrationNorm rt ro url univ = some e) : e = url := by
  unfold getRegistrationNorm at h
  by_cases hb : hasRegistrationNorm rt ro url univ = true
  · rw [if_pos hb] at h; exact (Option.some.inj h).symm
  · rw [if_neg hb] at h; cases h

/-- C7: `register(requestType, url)` on a URL of the relying origin is
idempotent: the first call returns a normalized URL and a storage universe,
and a second call with the same arguments on that universe returns the very
same URL and leaves the universe unchanged, so no duplicate handler-store
or origin-index entry is written and the result (and count) of
`getAllRegistrations` after the repeat equals its result after the single
registration. -/
theorem register_idempotent (rt ro : String) (u : WRUrl) (univ : LUniverse)
    (h : u.origin = ro) :
    ∃ url univ1, register rt ro u univ = .ok (url, univ1) ∧
      register rt ro u univ1 = .ok (url, univ1) := by
  subst h
  have hn : normalizeUrl u u.origin = .ok (u.origin ++ u.pathname) := by
    unfold normalizeUrl
    simp
  cases hreg : getRegistrationNorm rt u.origin (u.origin ++ u.pathname) univ with
  | some existing =>
    refine ⟨existing, univ, ?_, ?_⟩ <;> simp only [register, hn, hreg]
  | none =>
    refine ⟨u.origin ++ u.pathname,
      (setRegistration rt u.origin u.pathname univ).2, ?_, ?_⟩
    · simp only [register, hn, hreg, setRegistration]
    · have hhas : hasRegistrationNorm rt u.origin (u.origin ++ u.pathname)
          (setRegistration rt u.origin u.pathname univ).2 = true := by
        unfold hasRegistrationNorm setRegistration
        rw [uGet_uSet_same]
      simp only [register, hn, getRegistrationNorm, hhas, if_true]

/-- Witness for C7: registering `https://issuer.example/handler` twice for
request type `"credentialHandler"` from the empty universe. -/
theorem register_idempotent_witness :
    ∃ url univ1, register "credentialHandler" "https://issuer.example"
        ⟨"https://issuer.example", "/handler", "", ""⟩ [] = .ok (url, univ1) ∧
      register "credentialHandler" "https://issuer.example"
        ⟨"https://issuer.example", "/handler", "", ""⟩ univ1 =
        .ok (url, univ1) :=
  register_idempotent "credentialHandler" "https://issuer.example"
    ⟨"https://issuer.example", "/handler", "", ""⟩ [] rfl

/-- C8: `unregister(requestType, url)` on a URL of the relying origin:
with no registration for the normalized URL it returns `false` and emits no
"unregister" notification; with a registration it emits the notification
first and awaits the work attached via `waitUntil` — a rejection of that
work propagates to the caller with the removal not yet performed, leaving
the registration in place — and otherwise removes the handler-store entry
strictly after the notification completes and returns `true`. -/
theorem unregister_spec (rt ro : String) (u : WRUrl) (univ : LUniverse)
    (attached : Option (Except RegErr Unit)) (h : u.origin = ro) :
    (hasRegistrationNorm rt ro (u.origin ++ u.pathname) univ = false →
      unregister rt ro u univ attached = .ok (false, false, univ)) ∧
    (hasRegistrationNorm rt ro (u.origin ++ u.pathname) univ = true →
      (∀ e, attached = some (.error e) →
        unregister rt ro u univ attached = .error e) ∧
      ((attached = none ∨ attached = some (.ok ())) →
        ∃ univ', unregister rt ro u univ attached = .ok (true, true, univ') ∧
          hasRegistrationNorm rt ro (u.origin ++ u.pathname) univ' = false)) := by
  subst h
  have hn : normalizeUrl u u.origin = .ok (u.origin ++ u.pathname) := by
    unfold normalizeUrl
    simp
  constructor
  · intro hno
    simp only [unregister, hn, getRegistrationNorm, hno, Bool.false_eq_true,
      if_false]
  · intro hyes
    constructor
    · intro e he
      simp only [unregister, hn, getRegistrationNorm, hyes, if_true, he]
    · intro hok
      refine ⟨uRemove univ (handlerStorageName rt u.origin)
        (u.origin ++ u.pathname), ?_, ?_⟩
      · cases hok with
        | inl hnone =>
          simp only [unregister, hn, getRegistrationNorm, hyes, if_true, hnone]
        | inr hsome =>
          simp only [unregister, hn, getRegistrationNorm, hyes, if_true, hsome]
      · unfold hasRegistrationNorm
        rw [uGet_uRemove_same]

/-- Witness for C8: with no registration in the empty universe, the call
returns `false` and the notification flag is `false`. -/
theorem unregister_spec_witness :
    unregister "credentialHandler" "https://issuer.example"
      ⟨"https://issuer.example", "/handler", "", ""⟩ [] none =
      .ok (false, false, []) :=
  (unregister_spec "credentialHandler" "https://issuer.example"
    ⟨"https://issuer.example", "/handler", "", ""⟩ [] none rfl).1 rfl

/-- C9: the URL normalization used throughout `register`, `unregister`,
`getRegistration` and `hasRegistration`: a URL whose origin differs from
the relying origin makes every one of the four calls fail with the
normalization error; a URL of the relying origin normalizes to
`origin + pathname` with the query string and fragment stripped (the
normalized form is independent of them), and `register` returns exactly
that normalized form. -/
theorem normalizeUrl_spec (rt ro : String) (u : WRUrl) (univ : LUniverse)
    (attached : Option (Except RegErr Unit)) :
    (u.origin ≠ ro →
      normalizeUrl u ro = .error (.invalidOrigin (urlString u) ro) ∧
      register rt ro u univ = .error (.invalidOrigin (urlString u) ro) ∧
      unregister rt ro u univ attached =
        .error (.invalidOrigin (urlString u) ro) ∧
      getRegistration rt ro u univ = .error (.invalidOrigin (urlString u) ro) ∧
      hasRegistration rt ro u univ =
        .error (.invalidOrigin (urlString u) ro)) ∧
    (u.origin = ro →
      normalizeUrl u ro = .ok (u.origin ++ u.pathname) ∧
      (∀ q f, normalizeUrl ⟨u.origin, u.pathname, q, f⟩ ro =
        .ok (u.origin ++ u.pathname)) ∧
      (∃ univ1, register rt ro u univ = .ok (u.origin ++ u.pathname, univ1))) := by
  constructor
  · intro hne
    have hn : normalizeUrl u ro = .error (.invalidOrigin (urlString u) ro) := by
      unfold normalizeUrl
      rw [if_pos hne]
    refine ⟨hn, ?_, ?_, ?_, ?_⟩
    · simp only [register, hn]
    · simp only [unregister, hn]
    · simp only [getRegistration, hn]
    · simp only [hasRegistration, hn]
  · intro heq
    subst heq
    have hn : normalizeUrl u u.origin = .ok (u.origin ++ u.pathname) := by
      unfold normalizeUrl
      simp
    refine ⟨hn, fun q f => by unfold normalizeUrl; simp, ?_⟩
    cases hreg : getRegistrationNorm rt u.origin (u.origin ++ u.pathname) univ with
    | some existing =>
      refine ⟨univ, ?_⟩
      rw [getRegistrationNorm_eq_some rt u.origin _ existing univ hreg] at hreg
      simp only [register, hn, hreg]
    | none =>
      refine ⟨(setRegistration rt u.origin u.pathname univ).2, ?_⟩
      simp only [register, hn, hreg, setRegistration]

/-- Witness for C9: a URL of a different origin is rejected by
`hasRegistration`; the matching origin normalizes with query and fragment
stripped. -/
theorem normalizeUrl_spec_witness :
    hasRegistration "credentialHandler" "https://issuer.example"
      ⟨"https://evil.example", "/handler", "", ""⟩ [] =
      .error (.invalidOrigin "https://evil.example/handler"
        "https://issuer.example") ∧
    normalizeUrl ⟨"https://issuer.example", "/handler", "?q=1", "#frag"⟩
      "https://issuer.example" = .ok "https://issuer.example/handler" :=
  ⟨((normalizeUrl_spec "credentialHandler" "https://issuer.example"
      ⟨"https://evil.example", "/handler", "", ""⟩ [] none).1
        (by decide)).2.2.2.2,
    (((normalizeUrl_spec "credentialHandler" "https://issuer.example"
      ⟨"https://issuer.example", "/handler", "", ""⟩ [] none).2 rfl).2.1
        "?q=1" "#frag")⟩

/-- C10: `hasRegistration` returns `true` exactly when the handler store of
the relying origin maps the normalized URL to strictly the boolean `true`
(`=== true`); any other stored value (a string, number, configuration
object, or the boolean `false`) makes `hasRegistration` return `false`, and
consequently `getRegistration` returns `null` and `unregister` returns
`false` (without emitting) for that URL. -/
theorem hasRegistration_strict_true (rt ro : String) (u : WRUrl)
    (univ : LUniverse) (h : u.origin = ro) :
    (hasRegistration rt ro u univ = .ok true ↔
      uGet univ (handlerStorageName rt ro) (u.origin ++ u.pathname) =
        some (.vbool true)) ∧
    (∀ v, uGet univ (handlerStorageName rt ro) (u.origin ++ u.pathname) =
        some v → v ≠ .vbool true →
      hasRegistration rt ro u univ = .ok false ∧
      getRegistration rt ro u univ = .ok none ∧
      unregister rt ro u univ none = .ok (false, false, univ)) := by
  subst h
  have hn : normalizeUrl u u.origin = .ok (u.origin ++ u.pathname) := by
    unfold normalizeUrl
    simp
  have hfalse : ∀ v, uGet univ (handlerStorageName rt u.origin)
      (u.origin ++ u.pathname) = some v → v ≠ .vbool true →
      hasRegistrationNorm rt u.origin (u.origin ++ u.pathname) univ = false := by
    intro v hv hne
    unfold hasRegistrationNorm
    rw [hv]
    cases v with
    | vbool b =>
      cases b with
      | true => exact absurd rfl hne
      | false => rfl
    | vstr s => rfl
    | vnum n => rfl
    | vconfig nm => rfl
  constructor
  · constructor
    · intro hok
      have hnorm : hasRegistrationNorm rt u.origin (u.origin ++ u.pathname)
          univ = true := by
        simp only [hasRegistration, hn] at hok
        exact Except.ok.inj hok
      unfold hasRegistrationNorm at hnorm
      cases hv : uGet univ (handlerStorageName rt u.origin)
          (u.origin ++ u.pathname) with
      | none => rw [hv] at hnorm; cases hnorm
      | some v =>
        rw [hv] at hnorm
        cases v with
        | vbool b =>
          cases b with
          | true => rfl
          | false => cases hnorm
        | vstr s => cases hnorm
        | vnum n => cases hnorm
        | vconfig nm => cases hnorm
    · intro hv
      have hnorm : hasRegistrationNorm rt u.origin (u.origin ++ u.pathname)
          univ = true := by
        unfold hasRegistrationNorm
        rw [hv]
      simp only [hasRegistration, hn, hnorm]
  · intro v hv hne
    have hnorm := hfalse v hv hne
    refine ⟨?_, ?_, ?_⟩
    · simp only [hasRegistration, hn, hnorm]
    · simp only [getRegistration, hn, getRegistrationNorm, hnorm,
        Bool.false_eq_true, if_false]
    · simp only [unregister, hn, getRegistrationNorm, hnorm,
        Bool.false_eq_true, if_false]

/-- Witness for C10: a handler store holding the truthy *string* `"yes"`
under the URL yields `hasRegistration = false`, `getRegistration = null`,
and `unregister = false`. -/
theorem hasRegistration_strict_true_witness :
    hasRegistration "credentialHandler" "https://issuer.example"
      ⟨"https://issuer.example", "/handler", "", ""⟩
      (uSet [] (handlerStorageName "credentialHandler" "https://issuer.example")
        "https://issuer.example/handler" (.vstr "yes")) = .ok false ∧
    getRegistration "credentialHandler" "https://issuer.example"
      ⟨"https://issuer.example", "/handler", "", ""⟩
      (uSet [] (handlerStorageName "credentialHandler" "https://issuer.example")
        "https://issuer.example/handler" (.vstr "yes")) = .ok none :=
  ⟨(((hasRegistration_strict_true "credentialHandler" "https://issuer.example"
      ⟨"https://issuer.example", "/handler", "", ""⟩
      (uSet [] (handlerStorageName "credentialHandler" "https://issuer.example")
        "https://issuer.example/handler" (.vstr "yes")) rfl).2 (.vstr "yes")
      (by rfl) (by decide))).1,
    (((hasRegistration_strict_true "credentialHandler" "https://issuer.example"
      ⟨"https://issuer.example", "/handler", "", ""⟩
      (uSet [] (handlerStorageName "credentialHandler" "https://issuer.example")
        "https://issuer.example/handler" (.vstr "yes")) rfl).2 (.vstr "yes")
      (by rfl) (by decide))).2.1⟩

end WRM